import Mathlib

/-!
Shallow embedding of the core of the `Copilot` backend, for checking its
natural-language specification.

Covered source:
* `backend/pipeline.py` — hybrid retrieval (`retrieve_context`, keyword scan,
  structural dedup, fuzzy merge, blended scoring, adaptive cutoff);
* `backend/memory.py` / `backend/docs.py` — the two distance→similarity
  conversions used by `query_memory` and `query_docs`;
* `backend/agents/agent_core.py` — the ReAct loop `Agent.run`;
* `backend/agents/tool_adapters.py` — `run_tool_safely`, `parse_action_line`;
* `backend/agents/policy.py`, `backend/agents/prompts.py` — constants.

External collaborators (FAISS indexes, the embedding provider, the language
model, `json.loads`, `difflib.SequenceMatcher`, `numpy` square roots, Python's
`str()` on dicts) are modelled as oracle parameters.  Python floats are
modelled as exact rationals.  Python `str` is modelled as `String`.

One deliberate piece of faithfulness: `helper._extract_texts_from_faiss_index`
returns a list of *dicts* (`{"content": ..., "metadata": ...}`), while
`pipeline.retrieve_context` (line 97/104) and `query_memory`'s keyword
fallback (memory.py line 166-169) treat the extracted elements as *strings*.
Evaluating `text.lower()` on such a dict raises `AttributeError`.  The
embedding keeps that: extracted index items enter the corpus as `Cnt.cd`
values, and the keyword scan / memory fallback return `Except.error` whenever
they would touch one, exactly as the Python code raises there.
-/

namespace Copilot

/-- Python `x or default` on an optional integer-valued config field:
`None` and `0` are falsy and select the default. -/
def pyOrNat (v : Option Nat) (d : Nat) : Nat :=
  match v with
  | none => d
  | some 0 => d
  | some n => n

/-- Python `x or default` on an optional list-valued config field:
`None` and `[]` are falsy and select the default. -/
def pyOrList (v : Option (List String)) (d : List String) : List String :=
  match v with
  | none => d
  | some [] => d
  | some l => l

/-!
Python string primitives, implemented by structural recursion over the
character list so that concrete instances evaluate.  Python's `str.lower`,
`str.strip` and `\s`/`\w` are Unicode-aware; the `Char` predicates used here
cover their ASCII fragment, which is all the embedded strings exercise.
-/

/-- Python `s.lower()`. -/
def pyLower (s : String) : String := String.mk (s.data.map Char.toLower)

/-- Python `s.strip()` (no argument: strip whitespace on both sides). -/
def pyStrip (s : String) : String :=
  String.mk (((s.data.dropWhile Char.isWhitespace).reverse.dropWhile Char.isWhitespace).reverse)

/-- Python `s[:n]` (slicing counts characters). -/
def pyTake (s : String) (n : ℕ) : String := String.mk (s.data.take n)

/-- Python `s[n:]`. -/
def pyDrop (s : String) (n : ℕ) : String := String.mk (s.data.drop n)

def charsPref : List Char → List Char → Bool
  | [], _ => true
  | _ :: _, [] => false
  | a :: as, b :: bs => if a = b then charsPref as bs else false

/-- Python `s.startswith(pre)`. -/
def pyStartsWith (s pre : String) : Bool := charsPref pre.data s.data

/-- Split at every occurrence of `c`, keeping empty pieces
(Python `s.split(c)`). -/
def splitOnChar (c : Char) : List Char → List (List Char)
  | [] => [[]]
  | x :: xs =>
    if x = c then [] :: splitOnChar c xs
    else
      match splitOnChar c xs with
      | r :: rs => (x :: r) :: rs
      | [] => [[x]]

/-- Python `s.splitlines()` restricted to the `\n` / `\r` / `\r\n` line
boundaries (the exotic ones differ only in ways erased by the strip-and-drop
filter applied right after). -/
def pySplitLines (s : String) : List String :=
  ((splitOnChar '\n' s.data).flatMap (splitOnChar '\r')).map String.mk

/-- Bool membership in a list of strings. -/
def strMem (x : String) : List String → Bool
  | [] => false
  | y :: ys => if x = y then true else strMem x ys

def strDedupAux (seen : List String) : List String → List String
  | [] => []
  | x :: xs =>
    if strMem x seen then strDedupAux seen xs else x :: strDedupAux (x :: seen) xs

/-- First-occurrence dedup; gives the cardinality-correct model of Python's
`set(...)` for the overlap counting below. -/
def strDedup (l : List String) : List String := strDedupAux [] l

/-- A word character in the sense of Python's `\w` (ASCII fragment). -/
def isWordChar (c : Char) : Bool := c.isAlphanum || c = '_'

/-- Split a character list into the maximal runs of characters satisfying
`keep`, discarding the separators.  `splitRuns isWordChar` is `re.findall(r"\w+", ·)`,
`splitRuns (fun c => !c.isWhitespace)` is Python's `str.split()`. -/
def splitRunsAux (keep : Char → Bool) : List Char → List Char → List String
  | [], [] => []
  | [], acc => [String.mk acc.reverse]
  | c :: cs, acc =>
    if keep c then splitRunsAux keep cs (c :: acc)
    else if acc.isEmpty then splitRunsAux keep cs []
    else String.mk acc.reverse :: splitRunsAux keep cs []

def splitRuns (keep : Char → Bool) (s : String) : List String :=
  splitRunsAux keep s.data []

/-- `re.findall(r"\w+", s)` from `pipeline.WORD_RE`. -/
def findWords (s : String) : List String := splitRuns isWordChar s

/-- Python `s.split()` (split on whitespace runs, no empty pieces). -/
def pySplitWhite (s : String) : List String :=
  splitRuns (fun c => !c.isWhitespace) s

/-- Stable insertion of `x` into a descending-by-`key` list: `x` goes after
every earlier element whose key is `≥ key x`, matching the stability of
Python's `sorted(..., reverse=True)`. -/
def insDesc (key : α → ℚ) (x : α) : List α → List α
  | [] => [x]
  | y :: ys => if key x ≤ key y then y :: insDesc key x ys else x :: y :: ys

/-- Stable sort, descending by `key` (Python `sorted(l, key=key, reverse=True)`). -/
def stableSortDesc (key : α → ℚ) (l : List α) : List α :=
  l.foldl (fun acc x => insDesc key x acc) []

/-! ## Retrieval engine (`backend/pipeline.py`, `backend/memory.py`, `backend/docs.py`) -/

/-- One `{"content": ..., "score": ...}` result dict of `query_memory` / `query_docs`. -/
structure ScoredText where
  content : String
  score : ℚ
  deriving DecidableEq, Repr

/-- One item of `helper._extract_texts_from_faiss_index`: a dict
`{"content": str, "metadata": ...}` (metadata not modelled). -/
structure ExtractItem where
  content : String
  deriving DecidableEq, Repr

/-- The value stored under the `"content"` key of a corpus entry in
`retrieve_context`: either a Python `str` (semantic results) or one of the
dicts produced by `_extract_texts_from_faiss_index` (pipeline.py line 96-104
stores the whole dict `t`, not `t["content"]`). -/
inductive Cnt where
  | cs (s : String)
  | cd (item : ExtractItem)
  deriving DecidableEq, Repr

/-- A corpus entry `{"type": ..., "content": ..., "score": ...}` before the
keyword scan. -/
structure CorpusItem where
  type : String
  content : Cnt
  score : ℚ
  deriving DecidableEq, Repr

/-- A candidate dict from `mem_sem_items`/`doc_sem_items`/`keyword_results`:
`{"type", "content", "score"}` with an optional `"keyword_score"` key.
Contents here are always strings (the dict-content corpus entries make the
keyword scan raise before any of them could reach this stage). -/
structure RawCand where
  type : String
  content : String
  score : ℚ
  keyword_score : Option ℚ
  deriving DecidableEq, Repr

/-- A candidate after step 5 added the `"rank_score"` key. -/
structure ScoredCand where
  cand : RawCand
  rank_score : ℚ
  deriving DecidableEq, Repr

/-- `memory.query_memory` line 159: `sim = 1 - dist`. -/
def memSimOfDist (d : ℚ) : ℚ := 1 - d

/-- `docs.query_docs` line 198: `sim = 1 - dist / 2`. -/
def docSimOfDist (d : ℚ) : ℚ := 1 - d / 2

/-- The semantic loop of `query_memory` (memory.py lines 157-161): keep
`(content, 1 - dist)` for every search hit whose similarity meets the
threshold. -/
def memSemFilter (rs : List (String × ℚ)) (threshold : ℚ) : List ScoredText :=
  rs.filterMap fun p =>
    if memSimOfDist p.2 ≥ threshold then some ⟨p.1, memSimOfDist p.2⟩ else none

/-- The loop of `query_docs` (docs.py lines 196-200): keep
`(content, 1 - dist/2)` for every search hit whose similarity meets the
threshold. -/
def docSemFilter (rs : List (String × ℚ)) (threshold : ℚ) : List ScoredText :=
  rs.filterMap fun p =>
    if docSimOfDist p.2 ≥ threshold then some ⟨p.1, docSimOfDist p.2⟩ else none

/-- The seen-set dedup at the end of `query_memory` (lines 172-176): keep the
first occurrence of each content. -/
def dedupByContentAux (seen : List String) : List ScoredText → List ScoredText
  | [] => []
  | r :: rs =>
    if r.content ∈ seen then dedupByContentAux seen rs
    else r :: dedupByContentAux (r.content :: seen) rs

def dedupByContent (l : List ScoredText) : List ScoredText := dedupByContentAux [] l

/-- `memory.query_memory(query, threshold)` (memory.py lines 149-177).
Oracles: `memExists` is `os.path.exists(FAISS_PATH)`; `searchOutcome` is the
outcome of `index.similarity_search_with_score(query, k=10)` as
(content, distance) pairs, `none` meaning the call raised (swallowed by the
`try`); `memItems` is `_extract_texts_from_faiss_index(index)`.
The keyword fallback iterates the extracted dicts and calls `text.lower()`
on each one for every query word, so it raises `AttributeError` (modelled as
`Except.error ()`) as soon as the query has a word and the extraction is
non-empty; otherwise it appends nothing. -/
def query_memoryE (memExists : Bool) (searchOutcome : Option (List (String × ℚ)))
    (memItems : List ExtractItem) (query : String) (threshold : ℚ) :
    Except Unit (List ScoredText) :=
  if !memExists then .ok []
  else
    let semRes := match searchOutcome with
      | none => []
      | some rs => memSemFilter rs threshold
    if !memItems.isEmpty && !(pySplitWhite query).isEmpty then .error ()
    else .ok (dedupByContent (stableSortDesc (·.score) semRes))

/-- `docs.query_docs(query, threshold)` (docs.py lines 191-201); `searchRes`
is the outcome of `index.similarity_search_with_score(query, k=5)`. -/
def query_docs (searchRes : List (String × ℚ)) (threshold : ℚ) : List ScoredText :=
  docSemFilter searchRes threshold

/-- `pipeline.simple_keyword_score(text, query)` for a string `text`:
fraction of query words (lower-cased `\w+` tokens, as a set) present among
the text's words. -/
def simple_keyword_score (text query : String) : ℚ :=
  let qws := strDedup (findWords (pyLower query))
  let tws := strDedup (findWords (pyLower text))
  if qws.isEmpty then 0
  else ((qws.filter (fun w => strMem w tws)).length : ℚ) / (qws.length : ℚ)

/-- `pipeline.keyword_search_corpus(corpus, query, top_k)`.  The loop calls
`simple_keyword_score(item["content"], query)`, which evaluates
`text.lower()` before anything else; on a dict content that raises
`AttributeError`, so the whole scan fails as soon as any corpus entry holds
an extracted dict.  Otherwise: keep positive scores with a `"keyword_score"`
key added, stable-sort descending by that key, truncate to `top_k`. -/
def keyword_search_corpusE (corpus : List CorpusItem) (query : String) (top_k : ℕ) :
    Except Unit (List RawCand) :=
  if corpus.any (fun it => match it.content with | .cd _ => true | .cs _ => false) then
    .error ()
  else
    let scored := corpus.filterMap fun it =>
      match it.content with
      | .cd _ => none
      | .cs s =>
        let sc := simple_keyword_score s query
        if sc > 0 then some (⟨it.type, s, it.score, some sc⟩ : RawCand) else none
    .ok ((stableSortDesc (fun c => c.keyword_score.getD 0) scored).take top_k)

/-- The structural dedup key of `retrieve_context` step 3:
`(item["type"], item["content"].strip().lower()[:400])`. -/
def comboKey (c : RawCand) : String × String :=
  (c.type, pyTake (pyLower (pyStrip c.content)) 400)

/-- Python `dict` assignment `d[k] = v`: overwrite in place if the key is
present (keeping its position), append otherwise. -/
def dictInsert (k : String × String) (v : RawCand) :
    List ((String × String) × RawCand) → List ((String × String) × RawCand)
  | [] => [(k, v)]
  | (k', v') :: rest =>
    if k' = k then (k', v) :: rest else (k', v') :: dictInsert k v rest

/-- The dict comprehension of `retrieve_context` step 3 (pipeline.py lines
115-119): build `{(type, normalized content): item}` in list order and take
the values.  A later item with the same key silently replaces the earlier
one (Python dict semantics: last assignment wins, key keeps its first
position). -/
def dedupByKey (items : List RawCand) : List RawCand :=
  (items.foldl (fun acc c => dictInsert (comboKey c) c acc) []).map (·.2)

/-- Python `u.update(item)` on the candidate dicts of the fuzzy merge:
`type`, `content`, `score` are always overwritten; `keyword_score` only when
`item` carries that key. -/
def updDict (u item : RawCand) : RawCand :=
  ⟨item.type, item.content, item.score,
    match item.keyword_score with
    | some k => some k
    | none => u.keyword_score⟩

/-- Scan the accepted list for the first entry whose similarity ratio with
`text` exceeds 0.92; if found, merge (`u.update(item)` when the newcomer's
score is strictly larger) and report the updated list. -/
def mergeScan (ratioFn : String → String → ℚ) (item : RawCand) (text : String) :
    List RawCand → Option (List RawCand)
  | [] => none
  | u :: rest =>
    if ratioFn text u.content > 92 / 100 then
      some ((if item.score > u.score then updDict u item else u) :: rest)
    else
      match mergeScan ratioFn item text rest with
      | some rest' => some (u :: rest')
      | none => none

/-- Step 4 of `retrieve_context` (pipeline.py lines 123-137): iterate the
deduplicated list; skip blank contents; treat an item as a duplicate of the
first accepted entry with `SequenceMatcher(None, text, u["content"]).ratio() > 0.92`
(`ratioFn` is the `difflib` ratio oracle), otherwise append it. -/
def fuzzyMerge (ratioFn : String → String → ℚ) (items : List RawCand) : List RawCand :=
  items.foldl
    (fun unique item =>
      let text := pyStrip item.content
      if text = "" then unique
      else
        match mergeScan ratioFn item text unique with
        | some unique' => unique'
        | none => unique ++ [item])
    []

def dotQ (a b : List ℚ) : ℚ := (List.zipWith (· * ·) a b).sum

def sumSq (a : List ℚ) : ℚ := (a.map (fun x => x * x)).sum

/-- The cosine-similarity term of step 5 (pipeline.py lines 140-155): `0`
when no query embedding was obtained or the chunk embedding call failed,
otherwise `dot / (|q|·|c| + 1e-12)`.  `sqrtQ` is the numeric square root
(`np.linalg.norm`) oracle. -/
def cosineOrZero (embQ : Option (List ℚ)) (embChunk : String → Option (List ℚ))
    (sqrtQ : ℚ → ℚ) (content : String) : ℚ :=
  match embQ with
  | none => 0
  | some q =>
    match embChunk content with
    | none => 0
    | some e => dotQ q e / (sqrtQ (sumSq q) * sqrtQ (sumSq e) + 1 / 10 ^ 12)

/-- Step 5 of `retrieve_context` (pipeline.py lines 145-160): add
`rank_score = (0.55*base + 0.35*cosine + 0.10*keyword) * type_weight` with
`type_weight = 1.08` for memory candidates and `1.0` otherwise. -/
def scoreCands (embQ : Option (List ℚ)) (embChunk : String → Option (List ℚ))
    (sqrtQ : ℚ → ℚ) (items : List RawCand) : List ScoredCand :=
  items.map fun c =>
    ⟨c, (55 / 100 * c.score + 35 / 100 * cosineOrZero embQ embChunk sqrtQ c.content
          + 10 / 100 * c.keyword_score.getD 0)
         * (if c.type = "memory" then 108 / 100 else 1)⟩

def meanQ (l : List ℚ) : ℚ := l.sum / (l.length : ℚ)

/-- Population variance (square of `np.std`). -/
def varQ (l : List ℚ) : ℚ := meanQ (l.map fun x => (x - meanQ l) ^ 2)

/-- Step 6: `max(0.5, mean - 0.5 * std)` over the given rank scores, with
`sqrtQ` the numeric square root oracle used for `np.std`. -/
def cutoffOf (scores : List ℚ) (sqrtQ : ℚ → ℚ) : ℚ :=
  max (1 / 2) (meanQ scores - 1 / 2 * sqrtQ (varQ scores))

/-- Steps 6-7: keep the candidates at or above the adaptive cutoff, sorted
by rank score descending (stable). -/
def finalPhase (sqrtQ : ℚ → ℚ) (scoredL : List ScoredCand) : List ScoredCand :=
  stableSortDesc (·.rank_score)
    (scoredL.filter fun c => c.rank_score ≥ cutoffOf (scoredL.map (·.rank_score)) sqrtQ)

/-- The oracle bundle of one `retrieve_context` call: outcomes of all
external calls it performs. -/
structure RetrievalOracles where
  /-- `os.path.exists(FAISS_PATH)` inside `query_memory`. -/
  memExists : Bool
  /-- memory `similarity_search_with_score(query, k=10)`, `none` = raised. -/
  memSearch : Option (List (String × ℚ))
  /-- `_extract_texts_from_faiss_index` inside `query_memory`. -/
  memItems : List ExtractItem
  /-- docs `similarity_search_with_score(query, k=5)`. -/
  docSearch : List (String × ℚ)
  /-- step-2 memory extraction; `none` = the guarded block raised. -/
  memIndexItems : Option (List ExtractItem)
  /-- step-2 docs extraction; `none` = the guarded block raised. -/
  docIndexItems : Option (List ExtractItem)
  /-- `get_or_create_embedding(user_input, ...)`, `none` = raised. -/
  embQuery : Option (List ℚ)
  /-- `get_or_create_embedding(content, ...)`, `none` = raised. -/
  embChunk : String → Option (List ℚ)
  /-- numeric square root (`np.linalg.norm`, `np.std`). -/
  sqrtQ : ℚ → ℚ
  /-- `difflib.SequenceMatcher(None, a, b).ratio()`. -/
  ratioFn : String → String → ℚ

/-- The corpus built in step 2 plus the semantic items appended to it
(pipeline.py lines 92-109).  Extracted index entries enter with the whole
dict as content (`Cnt.cd`) and priors 0.85 / 0.8. -/
def corpusItems (O : RetrievalOracles) (mem_sem_items doc_sem_items : List RawCand) :
    List CorpusItem :=
  ((O.memIndexItems.getD []).map fun t => (⟨"memory", .cd t, 85 / 100⟩ : CorpusItem))
    ++ ((O.docIndexItems.getD []).map fun t => (⟨"doc", .cd t, 80 / 100⟩ : CorpusItem))
    ++ mem_sem_items.map (fun c => (⟨c.type, .cs c.content, c.score⟩ : CorpusItem))
    ++ doc_sem_items.map (fun c => (⟨c.type, .cs c.content, c.score⟩ : CorpusItem))

/-- Steps 3-7 of `retrieve_context` (the `combined`/`unique`/`rank_scores`
locals of pipeline.py lines 114-171), after the semantic queries and the
keyword scan succeeded. -/
def retrieveCore (O : RetrievalOracles) (mem_sem_items doc_sem_items keyword_results : List RawCand) :
    List ScoredCand :=
  if (dedupByKey (mem_sem_items ++ doc_sem_items ++ keyword_results)).isEmpty then []
  else
    if (scoreCands O.embQuery O.embChunk O.sqrtQ
        (fuzzyMerge O.ratioFn (dedupByKey (mem_sem_items ++ doc_sem_items ++ keyword_results)))).isEmpty
    then []
    else
      finalPhase O.sqrtQ (scoreCands O.embQuery O.embChunk O.sqrtQ
        (fuzzyMerge O.ratioFn (dedupByKey (mem_sem_items ++ doc_sem_items ++ keyword_results))))

/-- `mem_sem_items` (pipeline.py line 88). -/
def memSemItems (mem_sem : List ScoredText) : List RawCand :=
  mem_sem.map fun m => ⟨"memory", m.content, m.score, none⟩

/-- `doc_sem_items` (pipeline.py line 89). -/
def docSemItems (doc_sem : List ScoredText) : List RawCand :=
  doc_sem.map fun d => ⟨"doc", d.content, d.score, none⟩

/-- `pipeline.retrieve_context(user_input, mem_threshold, doc_threshold)`
(pipeline.py lines 81-171).  `Except.error ()` models the uncaught
`AttributeError` raised by the keyword fallback of `query_memory` or by the
keyword scan when extracted index dicts are present. -/
def retrieve_context (O : RetrievalOracles) (user_input : String)
    (mem_threshold doc_threshold : ℚ) : Except Unit (List ScoredCand) :=
  match query_memoryE O.memExists O.memSearch O.memItems user_input mem_threshold with
  | .error e => .error e
  | .ok mem_sem =>
    match keyword_search_corpusE
        (corpusItems O (memSemItems mem_sem)
          (docSemItems (query_docs O.docSearch doc_threshold)))
        user_input 200 with
    | .error e => .error e
    | .ok keyword_results =>
      .ok (retrieveCore O (memSemItems mem_sem)
        (docSemItems (query_docs O.docSearch doc_threshold)) keyword_results)

/-! ## Agent core (`backend/agents/*.py`) -/

/-- A JSON value as produced by `json.loads`. -/
inductive JVal where
  | obj (fields : List (String × JVal))
  | arr (elems : List JVal)
  | jstr (s : String)
  | jnum (q : ℚ)
  | jbool (b : Bool)
  | jnull

/-- `agents.types.Action`. -/
structure Action where
  name : String
  args : JVal

/-- `agents.types.Observation`; `metadata` is the optional debug dict. -/
structure Observation where
  text : String
  success : Bool
  metadata : Option (List (String × String))
  deriving DecidableEq, Repr

/-- `agents.types.TraceEntry`. -/
structure TraceEntry where
  step : ℕ
  thought : Option String
  action : Option Action
  observation : Option Observation

/-- `agents.types.AgentResult` (the optional `meta` field is always absent
in `Agent.run`). -/
structure AgentResult where
  final_text : String
  thoughts : String
  trace : List TraceEntry

/-- `agents.types.AgentConfig`: all fields optional, falling back to the
policy defaults through Python's `or`. -/
structure AgentConfig where
  max_steps : Option ℕ := none
  max_retries : Option ℕ := none
  tool_timeout_sec : Option ℕ := none
  allowed_tools : Option (List String) := none
  deriving DecidableEq, Repr

/-! Constants from `backend/agents/policy.py`. -/

def DEFAULT_MAX_STEPS : ℕ := 15
def DEFAULT_MAX_RETRIES : ℕ := 2
def DEFAULT_TOOL_TIMEOUT_SEC : ℕ := 30
def thoughtMarker : String := "Thought:"
def actionMarker : String := "Action:"
def observationMarker : String := "Observation:"
def finalAnswerMarker : String := "FinalAnswer:"

/-- An apostrophe, used to assemble the few-shot strings. -/
def ap : String := String.mk [Char.ofNat 39]

/-- `agents.prompts.REACT_INSTRUCTION` (verbatim; `{tool_list}` is the format
placeholder). -/
def REACT_INSTRUCTION : String :=
  "\nYou are Copilot, an agent that solves user requests by interleaving reasoning and tool use.\nFollow this format EXACTLY (machine-parseable):\n- Thought: short natural-language reasoning about what to do next (this will be visible in the UI if enabled).\n- Action: action_name(JSON_arguments)  <-- when you need data or to perform an operation, call a tool.\n- Observation: (the agent will fill this after running the tool)\nRepeat Thought -> Action -> Observation as needed.\nWhen you are finished, produce a final answer using:\n- FinalAnswer: <text>\nDo not call an action after FinalAnswer. If you are uncertain, ask clarifying questions in a FinalAnswer.\n\nAvailable tools: \x7btool_list\x7d\nRules:\n- Actions must use valid JSON for arguments.\n- If a tool fails, summarize the failure in the Observation and decide the next step.\n- Keep Thoughts concise (1-3 sentences).\n"

/-- `agents.prompts.FEW_SHOT_EXAMPLES` (verbatim; apostrophes assembled via
`ap`). -/
def FEW_SHOT_EXAMPLES : List String :=
  [ "### EXAMPLE 1\nThought: I need to multiply two numbers to answer the user.\nAction: calculator(\x7b\"expression\": \"47 * 6\"\x7d)\nObservation: 282\nThought: I have the product; provide the result.\nFinalAnswer: 47 multiplied by 6 is 282.\n"
  , "### EXAMPLE 2\nThought: The user asked whether \"Copilot\" supports plugins. I" ++ ap
      ++ "ll check the web.\nAction: http(\x7b\"method\": \"GET\", \"url\": \"https://example.com/search?q=Copilot+plugins\"\x7d)\nObservation: Found a page summarizing Copilot plugin support; it indicates plugin API is experimental.\nThought: Synthesize the result for the user.\nFinalAnswer: According to the result, Copilot"
      ++ ap ++ "s plugin API is experimental; you" ++ ap
      ++ "d need to opt in and enable developer features to use plugins.\n"
  , "### EXAMPLE 3\nThought: The user gave a long document and wants a short summary.\nAction: summarize_text(\x7b\"text\": \"Long document content...\", \"max_length\": 120\x7d)\nObservation: Short summary: "
      ++ ap ++ "X did Y and concluded Z." ++ ap
      ++ "\nThought: Provide concise summary and offer to expand on any section.\nFinalAnswer: Short summary: X did Y and concluded Z. Would you like me to expand any section?\n" ]

/-- One chat message `{"role": ..., "content": ...}`. -/
structure Message where
  role : String
  content : String
  deriving DecidableEq, Repr

/-- Outcome of actually invoking a tool's entry point: the stringified
result, a timeout, or any other exception (with its message).  A missing
`.run`/`.arun` attribute is an `AttributeError`, i.e. an `exc` outcome. -/
inductive ExecOutcome where
  | ok (result : String)
  | timeout
  | exc (msg : String)
  deriving DecidableEq, Repr

/-- Split a character list at the first occurrence of `c`
(Python `s.split(c, 1)`); `none` when `c` does not occur (in which case
Python's 2-element unpacking raises `ValueError`). -/
def splitFirstAux (c : Char) : List Char → Option (List Char × List Char)
  | [] => none
  | x :: xs =>
    if x = c then some ([], xs)
    else
      match splitFirstAux c xs with
      | some (a, b) => some (x :: a, b)
      | none => none

/-- Python `s.rsplit(c, 1)[0]`: everything before the last occurrence of
`c`, or the whole string when `c` does not occur. -/
def rsplitBeforeLast (s : String) (c : Char) : String :=
  match splitFirstAux c s.data.reverse with
  | none => s
  | some (_, rest) => String.mk rest.reverse

/-- `tool_adapters.parse_action_line` (tool_adapters.py lines 67-87), with
`jsonLoads` the `json.loads` oracle (`none` = the string is not valid JSON).
Trims the line, requires the case-insensitive `action:` prefix, splits at
the first `(`, takes the text before the last `)` (or to the end when there
is no `)`), and requires the JSON to be an object.  Every failure returns
`none`; nothing is raised. -/
def parse_action_line (jsonLoads : String → Option JVal) (line : String) : Option Action :=
  let line := pyStrip line
  if !(pyStartsWith (pyLower line) "action:") then none
  else
    let content := pyStrip (pyDrop line actionMarker.length)
    match splitFirstAux '(' content.data with
    | none => none
    | some (pre, post) =>
      let name := pyStrip (String.mk pre)
      let jsonStr := rsplitBeforeLast (String.mk post) ')'
      match jsonLoads jsonStr with
      | some (.obj fields) => some ⟨name, .obj fields⟩
      | _ => none

/-- `tool_adapters.run_tool_safely(name, args, timeout)` (lines 25-64).
`registry` is the key set of `_TOOL_REGISTRY`; `execF` gives the outcome of
actually running the tool (including `_run_with_timeout`). -/
def run_tool_safely (registry : List String) (execF : String → JVal → ExecOutcome)
    (name : String) (args : JVal) (timeoutS : ℕ) : Observation :=
  if name ∈ registry then
    match execF name args with
    | .ok r => ⟨r, true, none⟩
    | .timeout =>
        ⟨"Tool " ++ ap ++ name ++ ap ++ " timed out after " ++ toString timeoutS ++ "s.",
         false, some [("error", "timeout")]⟩
    | .exc m =>
        ⟨"Error while running tool " ++ ap ++ name ++ ap ++ ": " ++ m,
         false, some [("error", "exception"), ("details", m)]⟩
  else
    ⟨"Tool " ++ ap ++ name ++ ap ++ " not found in registry.",
     false, some [("error", "unknown_tool")]⟩

/-- The retry loop of `Agent.run` (agent_core.py lines 106-110):
`obs = None; for attempt in range(max_retries): obs = call(attempt); if obs.success: break`.
Returns the final value of `obs` (`none` only when zero attempts run)
together with the number of calls performed. -/
def retryAux (call : ℕ → Observation) : ℕ → ℕ → Option Observation × ℕ
  | 0, _ => (none, 0)
  | fuel + 1, i =>
    let obs := call i
    if obs.success then (some obs, 1)
    else
      match fuel with
      | 0 => (some obs, 1)
      | f + 1 =>
        let r := retryAux call (f + 1) (i + 1)
        (r.1, r.2 + 1)

/-- The oracle bundle of one `Agent.run` invocation. -/
structure AgentOracles where
  /-- `llm.ainvoke(messages)["content"]`. -/
  llm : List Message → String
  /-- outcome of running tool `name` with `args` on the k-th tool invocation
  of the run (0-based across steps and retries). -/
  exec : ℕ → String → JVal → ExecOutcome
  /-- `json.loads`. -/
  jsonLoads : String → Option JVal
  /-- Python `str()` of the parsed `args` dict (used only in the scratchpad). -/
  argsRepr : JVal → String
  /-- the keys of the global `_TOOL_REGISTRY`. -/
  registry : List String

/-- `model_text.splitlines()` followed by the strip-and-drop-blank filter of
agent_core.py line 71.  (Python `splitlines` also splits on a few exotic
control characters; after stripping and dropping blanks only `\n`/`\r`/`\r\n`
behave differently, and those are covered.) -/
def relevantLines (raw : String) : List String :=
  ((pySplitLines (pyStrip raw)).map pyStrip).filter (· ≠ "")

/-- The system prompt of `Agent.run` (agent_core.py lines 44-48):
`REACT_INSTRUCTION.format(tool_list=", ".join(allowed_tools))` plus the
newline-joined few-shot examples. -/
def buildSystemPrompt (allowed : List String) : String :=
  (REACT_INSTRUCTION.replace "\x7btool_list\x7d" (String.intercalate ", " allowed))
    ++ "\n\n" ++ String.intercalate "\n" FEW_SHOT_EXAMPLES

def noActionMessage : String := "I could not determine an action or final answer."
def maxStepsMessage : String := "Reached max reasoning steps without a final answer."

/-- The initial message list of `Agent.run` (agent_core.py lines 51-53). -/
def initialMessages (O : AgentOracles) (cfg : AgentConfig) (user_input : String)
    (history : List Message) : List Message :=
  ⟨"system", buildSystemPrompt (pyOrList cfg.allowed_tools O.registry)⟩
    :: history ++ [⟨"user", user_input⟩]

/-- The step loop of `Agent.run` (agent_core.py lines 55-125).  `fuel` is the
number of remaining iterations, `step` the 1-based index of the next one,
`calls` the number of tool invocations made so far.  The result is `none`
only on the unreachable `obs = None` path (an effective `max_retries` of 0,
where the Python code would raise `AttributeError` on `obs.text`). -/
def stepMessages (messages : List Message) (scratch : List String) : List Message :=
  if scratch.isEmpty then messages
  else messages ++ [⟨"assistant", "(previous reasoning)\n" ++ String.intercalate "\n" scratch⟩]

/-- The non-blank stripped lines of the model response at a given loop state
(agent_core.py lines 55-71). -/
def modelLinesAt (O : AgentOracles) (messages : List Message) (scratch : List String) :
    List String :=
  relevantLines (O.llm (stepMessages messages scratch))

/-- The scratchpad appended after a dispatched action (agent_core.py lines
114-118): the thought line when present, then the action line and the
observation line. -/
def scratchAfterAction (O : AgentOracles) (scratch : List String)
    (thought_line : Option String) (action : Action) (obs : Observation) : List String :=
  (match thought_line with
   | some t => scratch ++ [t]
   | none => scratch)
    ++ [actionMarker ++ " " ++ action.name ++ "(" ++ O.argsRepr action.args ++ ")",
        observationMarker ++ " " ++ obs.text]

def runLoop (O : AgentOracles) (max_retries timeoutS : ℕ) :
    ℕ → ℕ → List Message → List String → List TraceEntry → ℕ → Option AgentResult
  | 0, _, _, scratch, trace, _ =>
    some ⟨maxStepsMessage, String.intercalate "\n" scratch, trace⟩
  | fuel + 1, step, messages, scratch, trace, calls =>
    match (modelLinesAt O messages scratch).find? (fun l => pyStartsWith l finalAnswerMarker) with
    | some fl =>
      some ⟨pyStrip (pyDrop fl finalAnswerMarker.length), String.intercalate "\n" scratch, trace⟩
    | none =>
      match (modelLinesAt O messages scratch).find? (fun l => pyStartsWith l actionMarker) with
      | none => some ⟨noActionMessage, String.intercalate "\n" scratch, trace⟩
      | some al =>
        match parse_action_line O.jsonLoads al with
        | none =>
          runLoop O max_retries timeoutS fuel (step + 1) (stepMessages messages scratch)
            (scratch ++ [observationMarker ++ " " ++ "Failed to parse action line: " ++ al])
            (trace ++ [⟨step,
              (modelLinesAt O messages scratch).find? (fun l => pyStartsWith l thoughtMarker),
              none,
              some ⟨"Failed to parse action line: " ++ al, false,
                    some [("error", "parse_error")]⟩⟩]) calls
        | some action =>
          match retryAux
              (fun i => run_tool_safely O.registry (O.exec (calls + i)) action.name action.args
                timeoutS) max_retries 0 with
          | (none, _) => none
          | (some obs, used) =>
            runLoop O max_retries timeoutS fuel (step + 1) (stepMessages messages scratch)
              (scratchAfterAction O scratch
                ((modelLinesAt O messages scratch).find? (fun l => pyStartsWith l thoughtMarker))
                action obs)
              (trace ++ [⟨step,
                (modelLinesAt O messages scratch).find? (fun l => pyStartsWith l thoughtMarker),
                some action, some obs⟩]) (calls + used)

/-- `Agent.run(user_input, history)` (agent_core.py lines 29-125). -/
def Agent.run (O : AgentOracles) (cfg : AgentConfig) (user_input : String)
    (history : List Message) : Option AgentResult :=
  runLoop O (pyOrNat cfg.max_retries DEFAULT_MAX_RETRIES)
    (pyOrNat cfg.tool_timeout_sec DEFAULT_TOOL_TIMEOUT_SEC)
    (pyOrNat cfg.max_steps DEFAULT_MAX_STEPS) 1
    (initialMessages O cfg user_input history) [] [] 0

/-! ## Auxiliary definitions for the statements -/

/-- Replace the value stored at the first occurrence of key `k` (no-op when
the key is absent).  Used to characterize Python dict updates. -/
def replaceVal (k : String × String) (v : RawCand) :
    List ((String × String) × RawCand) → List ((String × String) × RawCand)
  | [] => []
  | (k', v') :: rest =>
    if k' = k then (k', v) :: rest else (k', v') :: replaceVal k v rest

/-- `t` is a final answer extracted from some response of the model oracle:
a non-blank line of the stripped response starts with `FinalAnswer:` and `t`
is its stripped remainder. -/
def isModelFinal (O : AgentOracles) (t : String) : Prop :=
  ∃ ms fl, fl ∈ relevantLines (O.llm ms) ∧
    pyStartsWith fl finalAnswerMarker = true ∧
    t = pyStrip (pyDrop fl finalAnswerMarker.length)

/-- A `json.loads` oracle agreeing with Python on the handful of strings the
concrete theorems probe: the empty object, one tiny object, the
documentation example, and the non-JSON string from the spec (everything
else is unconstrained and mapped to failure). -/
def jsonLoadsSample : String → Option JVal := fun s =>
  if s = "\x7b\x7d" then some (.obj [])
  else if s = "\x7b\"a\": 1\x7d" then some (.obj [("a", .jnum 1)])
  else if s = "\x7b\"expression\": \"2+2\"\x7d" then some (.obj [("expression", .jstr "2+2")])
  else none

/-- Retrieval oracle bundle for the C1 counterexample: the docs search
returns two hits whose contents differ only in case (hence collide on the
structural key), the better one first; everything else is empty/failing. -/
def Odup : RetrievalOracles where
  memExists := false
  memSearch := none
  memItems := []
  docSearch := [("Hello", 3/50), ("hello", 1/10)]
  memIndexItems := some []
  docIndexItems := some []
  embQuery := none
  embChunk := fun _ => none
  sqrtQ := fun _ => 0
  ratioFn := fun _ _ => 0

/-- Retrieval oracle bundle with a single perfect docs hit, used by the
concrete witnesses. -/
def Osimple : RetrievalOracles where
  memExists := false
  memSearch := none
  memItems := []
  docSearch := [("hello docs", 0)]
  memIndexItems := some []
  docIndexItems := some []
  embQuery := none
  embChunk := fun _ => none
  sqrtQ := fun _ => 0
  ratioFn := fun _ _ => 0

/-- Agent oracle bundle for the C10 witness: the model always answers with
an action invoking tool `t` on `{}`; the registry contains exactly `t`, and
running it succeeds. -/
def OA : AgentOracles where
  llm := fun _ => "Action: t(\x7b\x7d)"
  exec := fun _ _ _ => .ok "done"
  jsonLoads := jsonLoadsSample
  argsRepr := fun _ => "\x7b\x7d"
  registry := ["t"]

/-- Config whose `allowed_tools` names only a tool distinct from `t`. -/
def cfgA : AgentConfig where
  allowed_tools := some ["other"]

instance {ε α : Type} [DecidableEq ε] [DecidableEq α] : DecidableEq (Except ε α) := fun a b =>
  match a, b with
  | .ok x, .ok y =>
    if h : x = y then isTrue (by rw [h]) else isFalse (by intro hc; cases hc; exact h rfl)
  | .error x, .error y =>
    if h : x = y then isTrue (by rw [h]) else isFalse (by intro hc; cases hc; exact h rfl)
  | .ok _, .error _ => isFalse (by intro hc; cases hc)
  | .error _, .ok _ => isFalse (by intro hc; cases hc)

/-! ## Supporting lemmas -/

theorem pyOrNat_pos (v : Option Nat) (d : Nat) (hd : 0 < d) : 0 < pyOrNat v d := by
  cases v with
  | none => simpa [pyOrNat]
  | some n => cases n with
    | zero => simpa [pyOrNat]
    | succ m => simp [pyOrNat]

theorem mem_insDesc (key : α → ℚ) (x a : α) (l : List α) :
    a ∈ insDesc key x l ↔ a = x ∨ a ∈ l := by
  induction l with
  | nil => simp [insDesc]
  | cons y ys ih =>
    by_cases h : key x ≤ key y
    · simp only [insDesc, if_pos h, List.mem_cons, ih]
      tauto
    · simp only [insDesc, if_neg h, List.mem_cons]

theorem mem_stableSortDesc (key : α → ℚ) (a : α) (l : List α) :
    a ∈ stableSortDesc key l ↔ a ∈ l := by
  suffices h : ∀ acc : List α,
      a ∈ l.foldl (fun acc x => insDesc key x acc) acc ↔ a ∈ acc ∨ a ∈ l by
    simpa [stableSortDesc] using h []
  induction l with
  | nil => simp
  | cons y ys ih =>
    intro acc
    simp only [List.foldl_cons]
    rw [ih (insDesc key y acc)]
    simp [mem_insDesc]
    tauto

theorem retryAux_allFail (call : ℕ → Observation) (h : ∀ i, (call i).success = false) :
    ∀ fuel i, 1 ≤ fuel → retryAux call fuel i = (some (call (i + fuel - 1)), fuel) := by
  intro fuel
  induction fuel with
  | zero => intro i h1; omega
  | succ f ih =>
    intro i _
    cases f with
    | zero => simp [retryAux, h i]
    | succ f' =>
      have harith : i + 1 + (f' + 1) - 1 = i + (f' + 1 + 1) - 1 := by omega
      simp only [retryAux, h i, Bool.false_eq_true, if_false]
      rw [ih (i + 1) (by omega), harith]

theorem retryAux_firstSuccess (call : ℕ → Observation) :
    ∀ (k fuel i : ℕ), k < fuel → (∀ j, j < k → (call (i + j)).success = false) →
      (call (i + k)).success = true →
      retryAux call fuel i = (some (call (i + k)), k + 1) := by
  intro k
  induction k with
  | zero =>
    intro fuel i hk hfail hsucc
    cases fuel with
    | zero => omega
    | succ f =>
      rw [Nat.add_zero] at hsucc
      cases f with
      | zero => simp [retryAux, hsucc]
      | succ f' => simp [retryAux, hsucc]
  | succ k ih =>
    intro fuel i hk hfail hsucc
    cases fuel with
    | zero => omega
    | succ f =>
      have h0 : (call i).success = false := by simpa using hfail 0 (by omega)
      cases f with
      | zero => omega
      | succ f' =>
        have hfail' : ∀ j, j < k → (call (i + 1 + j)).success = false := by
          intro j hj
          have harith : i + 1 + j = i + (j + 1) := by omega
          rw [harith]
          exact hfail (j + 1) (by omega)
        have hsucc' : (call (i + 1 + k)).success = true := by
          have harith : i + 1 + k = i + (k + 1) := by omega
          rw [harith]; exact hsucc
        have harith : i + 1 + k = i + (k + 1) := by omega
        simp only [retryAux, h0, Bool.false_eq_true, if_false]
        rw [ih (f' + 1) (i + 1) (by omega) hfail' hsucc', harith]

/-! ## Theorems for the claims -/

/-- Claim C9: the memory-corpus search converts distance to similarity as
`1 - d` (memory.py line 159) while the document-corpus search uses
`1 - d/2` (docs.py line 198); for every non-zero distance the two
conventions disagree, and the two conversion functions are distinct.  The
last two conjuncts exhibit the conversions inside the respective search
loops `memSemFilter` (used by `query_memoryE`) and `docSemFilter` (used by
`query_docs`). -/
theorem similarity_normalization_differs :
    (∀ d : ℚ, d ≠ 0 → memSimOfDist d ≠ docSimOfDist d) ∧
    memSimOfDist ≠ docSimOfDist ∧
    (∀ (rs : List (String × ℚ)) (threshold : ℚ) (c : String) (d : ℚ),
       (c, d) ∈ rs → threshold ≤ memSimOfDist d →
       (⟨c, memSimOfDist d⟩ : ScoredText) ∈ memSemFilter rs threshold) ∧
    (∀ (rs : List (String × ℚ)) (threshold : ℚ) (c : String) (d : ℚ),
       (c, d) ∈ rs → threshold ≤ docSimOfDist d →
       (⟨c, docSimOfDist d⟩ : ScoredText) ∈ docSemFilter rs threshold) := by
  refine ⟨?_, ?_, ?_, ?_⟩
  · intro d hd h
    unfold memSimOfDist docSimOfDist at h
    apply hd
    linarith
  · intro h
    have h1 := congrFun h 1
    unfold memSimOfDist docSimOfDist at h1
    norm_num at h1
  · intro rs threshold c d hmem hth
    unfold memSemFilter
    rw [List.mem_filterMap]
    exact ⟨(c, d), hmem, by rw [if_pos (by exact hth)]⟩
  · intro rs threshold c d hmem hth
    unfold docSemFilter
    rw [List.mem_filterMap]
    exact ⟨(c, d), hmem, by rw [if_pos (by exact hth)]⟩

/-- Concrete instance of C9 at distance 1 and at two singleton search
results. -/
theorem similarity_normalization_differs_witness :
    memSimOfDist 1 ≠ docSimOfDist 1 ∧
    (⟨"m", memSimOfDist (1/5)⟩ : ScoredText) ∈ memSemFilter [("m", 1/5)] (7/10) ∧
    (⟨"d", docSimOfDist (1/5)⟩ : ScoredText) ∈ docSemFilter [("d", 1/5)] (7/10) :=
  ⟨similarity_normalization_differs.1 1 (by norm_num),
   similarity_normalization_differs.2.2.1 [("m", 1/5)] (7/10) "m" (1/5) (by simp)
     (by unfold memSimOfDist; norm_num),
   similarity_normalization_differs.2.2.2 [("d", 1/5)] (7/10) "d" (1/5) (by simp)
     (by unfold docSimOfDist; norm_num)⟩

/-- Claim C3: when the second of two candidates has a similarity ratio above
0.92 against the first, the fuzzy merge keeps exactly one entry; the
survivor carries the type, content and score of the strictly
higher-scoring candidate (the first wins ties, as `item.score > u.score`
is strict). -/
theorem fuzzy_merge_two_candidates (ratioFn : String → String → ℚ) (c₁ c₂ : RawCand)
    (h₁ : pyStrip c₁.content ≠ "") (h₂ : pyStrip c₂.content ≠ "")
    (hr : ratioFn (pyStrip c₂.content) c₁.content > 92 / 100) :
    (fuzzyMerge ratioFn [c₁, c₂]).length = 1 ∧
    (c₁.score < c₂.score →
       fuzzyMerge ratioFn [c₁, c₂] = [updDict c₁ c₂] ∧
       (updDict c₁ c₂).score = c₂.score ∧ (updDict c₁ c₂).content = c₂.content ∧
       (updDict c₁ c₂).type = c₂.type) ∧
    (c₂.score ≤ c₁.score → fuzzyMerge ratioFn [c₁, c₂] = [c₁]) := by
  have hfold : fuzzyMerge ratioFn [c₁, c₂] =
      [if c₂.score > c₁.score then updDict c₁ c₂ else c₁] := by
    simp only [fuzzyMerge, List.foldl_cons, List.foldl_nil]
    rw [if_neg h₁]
    simp only [mergeScan, List.nil_append]
    rw [if_neg h₂, if_pos hr]
  refine ⟨?_, ?_, ?_⟩
  · rw [hfold]; cases Decidable.em (c₂.score > c₁.score) <;> simp
  · intro hlt
    rw [hfold, if_pos (by exact hlt)]
    exact ⟨rfl, rfl, rfl, rfl⟩
  · intro hle
    rw [hfold, if_neg (by exact not_lt.mpr hle)]

/-- Concrete instance of C3: two near-duplicates, the newcomer scoring
higher; one merged entry with the newcomer's fields survives. -/
theorem fuzzy_merge_two_candidates_witness :
    (fuzzyMerge (fun _ _ => 1) [⟨"memory", "aa", 1/2, none⟩, ⟨"memory", "ab", 3/4, some 1⟩]).length = 1 ∧
    fuzzyMerge (fun _ _ => 1) [⟨"memory", "aa", 1/2, none⟩, ⟨"memory", "ab", 3/4, some 1⟩] =
      [updDict ⟨"memory", "aa", 1/2, none⟩ ⟨"memory", "ab", 3/4, some 1⟩] := by
  have h := fuzzy_merge_two_candidates (fun _ _ => 1)
    ⟨"memory", "aa", 1/2, none⟩ ⟨"memory", "ab", 3/4, some 1⟩
    (by decide) (by decide) (by norm_num)
  exact ⟨h.1, (h.2.1 (by norm_num)).1⟩

/-- Claim C6: within one step's dispatch, the retry loop of `Agent.run`
(embedded as `retryAux`) stops at the first success, runs a later attempt
only when every earlier one failed, records the final observation (first
success or last failure), and invokes an always-failing tool exactly
`maxRetries` times — whose policy default is 2. -/
theorem retry_bound_spec (call : ℕ → Observation) (n : ℕ) (hn : 1 ≤ n) :
    ((∀ i, (call i).success = false) →
       retryAux call n 0 = (some (call (n - 1)), n)) ∧
    (∀ k, k < n → (∀ j, j < k → (call j).success = false) → (call k).success = true →
       retryAux call n 0 = (some (call k), k + 1)) ∧
    DEFAULT_MAX_RETRIES = 2 := by
  refine ⟨?_, ?_, rfl⟩
  · intro h
    have hh := retryAux_allFail call h n 0 hn
    simpa using hh
  · intro k hk hfail hsucc
    have hh := retryAux_firstSuccess call k n 0 hk
      (fun j hj => by simpa using hfail j hj) (by simpa using hsucc)
    simpa using hh

/-- Concrete instance of C6: an always-failing tool with `maxRetries = 2` is
called exactly twice and the recorded observation is the last failure. -/
theorem retry_bound_spec_witness :
    retryAux (fun _ => ⟨"boom", false, none⟩) 2 0 = (some ⟨"boom", false, none⟩, 2) :=
  (retry_bound_spec (fun _ => ⟨"boom", false, none⟩) 2 (by norm_num)).1 (fun _ => rfl)

/-- Claim C8: `run_tool_safely` always returns an `Observation` (it is a
total function): unknown names give the unknown-tool error kind, timeouts
the timeout kind with the result abandoned, any other exception the
execution-exception kind carrying the message, and a successful execution
gives `success = true` with the stringified result as text. -/
theorem run_tool_safely_spec (registry : List String) (execF : String → JVal → ExecOutcome)
    (name : String) (args : JVal) (timeoutS : ℕ) :
    (name ∉ registry →
       run_tool_safely registry execF name args timeoutS =
         ⟨"Tool " ++ ap ++ name ++ ap ++ " not found in registry.", false,
          some [("error", "unknown_tool")]⟩) ∧
    (∀ r, name ∈ registry → execF name args = .ok r →
       run_tool_safely registry execF name args timeoutS = ⟨r, true, none⟩) ∧
    (name ∈ registry → execF name args = .timeout →
       run_tool_safely registry execF name args timeoutS =
         ⟨"Tool " ++ ap ++ name ++ ap ++ " timed out after " ++ toString timeoutS ++ "s.",
          false, some [("error", "timeout")]⟩) ∧
    (∀ m, name ∈ registry → execF name args = .exc m →
       run_tool_safely registry execF name args timeoutS =
         ⟨"Error while running tool " ++ ap ++ name ++ ap ++ ": " ++ m, false,
          some [("error", "exception"), ("details", m)]⟩) := by
  refine ⟨?_, ?_, ?_, ?_⟩
  · intro h; simp [run_tool_safely, h]
  · intro r h hr; simp [run_tool_safely, h, hr]
  · intro h hr; simp [run_tool_safely, h, hr]
  · intro m h hr; simp [run_tool_safely, h, hr]

/-- Concrete instance of C8, one conjunct per outcome kind. -/
theorem run_tool_safely_spec_witness :
    (run_tool_safely ["calc"] (fun _ _ => .ok "4") "nope" (.obj []) 30).success = false ∧
    run_tool_safely ["calc"] (fun _ _ => .ok "4") "calc" (.obj []) 30 = ⟨"4", true, none⟩ ∧
    (run_tool_safely ["calc"] (fun _ _ => .timeout) "calc" (.obj []) 30).metadata =
      some [("error", "timeout")] ∧
    (run_tool_safely ["calc"] (fun _ _ => .exc "div by zero") "calc" (.obj []) 30).metadata =
      some [("error", "exception"), ("details", "div by zero")] := by
  refine ⟨?_, ?_, ?_, ?_⟩
  · rw [(run_tool_safely_spec ["calc"] (fun _ _ => .ok "4") "nope" (.obj []) 30).1 (by decide)]
  · exact (run_tool_safely_spec ["calc"] (fun _ _ => .ok "4") "calc" (.obj []) 30).2.1 "4"
      (by decide) rfl
  · rw [(run_tool_safely_spec ["calc"] (fun _ _ => .timeout) "calc" (.obj []) 30).2.2.1
      (by decide) rfl]
  · rw [(run_tool_safely_spec ["calc"] (fun _ _ => .exc "div by zero") "calc" (.obj []) 30).2.2.2
      "div by zero" (by decide) rfl]

/-- Claim C7 counterexample: `parse_action_line` succeeds on an *empty* tool
name (`Action: ({})` parses to name `""`) and on a missing closing
parenthesis (`Action: calculator({"a": 1}` parses fine, because
`rsplit(")", 1)[0]` of a string without `)` is the whole string), while the
claim requires both to be parse failures.  `jsonLoadsSample` agrees with
Python's `json.loads` on the two argument strings involved. -/
theorem parse_action_line_claim_false :
    parse_action_line jsonLoadsSample "Action: (\x7b\x7d)" = some ⟨"", .obj []⟩ ∧
    parse_action_line jsonLoadsSample "Action: calculator(\x7b\"a\": 1\x7d" =
      some ⟨"calculator", .obj [("a", .jnum 1)]⟩ := by
  exact ⟨by rfl, by rfl⟩

/-- Claim C7 amended: the parse succeeds exactly when the trimmed line
case-insensitively starts with `Action:`, the remainder contains a `(`, and
the text between the first `(` and the last `)` (to the end when no `)`
exists) parses as a JSON object; the tool name — the trimmed text before
the `(` — may be empty.  Missing `(`, malformed JSON and non-object JSON
fail; nothing is raised (the function is total). -/
theorem parse_action_line_characterization (jsonLoads : String → Option JVal) (line : String) :
    (∃ a, parse_action_line jsonLoads line = some a) ↔
      (pyStartsWith (pyLower (pyStrip line)) "action:" = true ∧
       ∃ pre post,
         splitFirstAux '(' (pyStrip (pyDrop (pyStrip line) actionMarker.length)).data =
           some (pre, post) ∧
         ∃ fields, jsonLoads (rsplitBeforeLast (String.mk post) ')') = some (.obj fields)) := by
  by_cases h : pyStartsWith (pyLower (pyStrip line)) "action:"
  · simp only [parse_action_line, h, Bool.not_true, Bool.false_eq_true, if_false, true_and]
    cases hsp : splitFirstAux '(' (pyStrip (pyDrop (pyStrip line) actionMarker.length)).data with
    | none => simp [hsp]
    | some pp =>
      obtain ⟨pre, post⟩ := pp
      cases hjl : jsonLoads (rsplitBeforeLast (String.mk post) ')') with
      | none => simp [hsp, hjl]
      | some v =>
        cases v <;> simp [hsp, hjl]
        exact ⟨pre, post, ⟨rfl, rfl⟩, _, hjl⟩
  · rw [Bool.not_eq_true] at h
    simp [parse_action_line, h]

theorem dictInsert_hasKey_self (k : String × String) (v : RawCand)
    (acc : List ((String × String) × RawCand)) :
    ∃ p ∈ dictInsert k v acc, p.1 = k := by
  induction acc with
  | nil => exact ⟨(k, v), by simp [dictInsert], rfl⟩
  | cons hd tl ih =>
    obtain ⟨k', v'⟩ := hd
    by_cases h : k' = k
    · exact ⟨(k', v), by simp [dictInsert, h], h⟩
    · obtain ⟨p, hp, hpk⟩ := ih
      exact ⟨p, by simp [dictInsert, h]; right; exact hp, hpk⟩

theorem hasKey_dictInsert (k k' : String × String) (v : RawCand)
    (acc : List ((String × String) × RawCand)) (h : ∃ p ∈ acc, p.1 = k) :
    ∃ p ∈ dictInsert k' v acc, p.1 = k := by
  induction acc with
  | nil => simp at h
  | cons hd tl ih =>
    obtain ⟨k₀, v₀⟩ := hd
    obtain ⟨p, hp, hpk⟩ := h
    by_cases h0 : k₀ = k'
    · rw [List.mem_cons] at hp
      cases hp with
      | inl he =>
        refine ⟨(k₀, v), by simp [dictInsert, h0], ?_⟩
        rw [he] at hpk; exact hpk
      | inr hm => exact ⟨p, by simp [dictInsert, h0]; right; exact hm, hpk⟩
    · rw [List.mem_cons] at hp
      cases hp with
      | inl he =>
        refine ⟨(k₀, v₀), by simp [dictInsert, h0], ?_⟩
        rw [he] at hpk; exact hpk
      | inr hm =>
        obtain ⟨p', hp', hpk'⟩ := ih ⟨p, hm, hpk⟩
        exact ⟨p', by simp [dictInsert, h0]; right; exact hp', hpk'⟩

theorem hasKey_foldl (k : String × String) :
    ∀ (l : List RawCand) (acc : List ((String × String) × RawCand)),
      (∃ p ∈ acc, p.1 = k) →
      ∃ p ∈ l.foldl (fun a c => dictInsert (comboKey c) c a) acc, p.1 = k := by
  intro l
  induction l with
  | nil => intro acc h; simpa using h
  | cons d tl ih =>
    intro acc h
    simp only [List.foldl_cons]
    exact ih _ (hasKey_dictInsert k (comboKey d) d acc h)

theorem dictInsert_eq_replaceVal (k : String × String) (v : RawCand) :
    ∀ acc : List ((String × String) × RawCand), (∃ p ∈ acc, p.1 = k) →
      dictInsert k v acc = replaceVal k v acc := by
  intro acc
  induction acc with
  | nil => intro h; simp at h
  | cons hd tl ih =>
    intro h
    obtain ⟨k₀, v₀⟩ := hd
    by_cases h0 : k₀ = k
    · simp [dictInsert, replaceVal, h0]
    · obtain ⟨p, hp, hpk⟩ := h
      rw [List.mem_cons] at hp
      cases hp with
      | inl he =>
        exfalso; apply h0; rw [he] at hpk; exact hpk
      | inr hm =>
        simp only [dictInsert, replaceVal, if_neg h0, List.cons.injEq, true_and]
        exact ih ⟨p, hm, hpk⟩

theorem replaceVal_dictInsert_ne (k k' : String × String) (hne : k' ≠ k) (v d : RawCand) :
    ∀ acc : List ((String × String) × RawCand),
      replaceVal k v (dictInsert k' d acc) = dictInsert k' d (replaceVal k v acc) := by
  intro acc
  induction acc with
  | nil => simp [dictInsert, replaceVal, hne]
  | cons hd tl ih =>
    obtain ⟨k₀, v₀⟩ := hd
    by_cases h0 : k₀ = k'
    · have h0k : ¬ (k₀ = k) := by rw [h0]; exact hne
      simp [dictInsert, replaceVal, h0, h0k, hne, Ne.symm hne]
    · by_cases h0k : k₀ = k
      · simp [dictInsert, replaceVal, h0, h0k, hne, Ne.symm hne]
      · simp only [dictInsert, replaceVal, if_neg h0, if_neg h0k]
        rw [ih]

theorem replaceVal_dictInsert_self (k : String × String) (v₁ v₂ : RawCand) :
    ∀ acc : List ((String × String) × RawCand),
      replaceVal k v₂ (dictInsert k v₁ acc) = dictInsert k v₂ acc := by
  intro acc
  induction acc with
  | nil => simp [dictInsert, replaceVal]
  | cons hd tl ih =>
    obtain ⟨k₀, v₀⟩ := hd
    by_cases h0 : k₀ = k
    · simp [dictInsert, replaceVal, h0]
    · simp only [dictInsert, replaceVal, if_neg h0, List.cons.injEq, true_and]
      exact ih

theorem foldl_replaceVal (k : String × String) (v : RawCand) :
    ∀ (mid : List RawCand) (acc : List ((String × String) × RawCand)),
      (∀ d ∈ mid, comboKey d ≠ k) →
      mid.foldl (fun a c => dictInsert (comboKey c) c a) (replaceVal k v acc) =
        replaceVal k v (mid.foldl (fun a c => dictInsert (comboKey c) c a) acc) := by
  intro mid
  induction mid with
  | nil => intro acc _; simp
  | cons d tl ih =>
    intro acc hm
    simp only [List.foldl_cons]
    rw [← replaceVal_dictInsert_ne k (comboKey d) (hm d (by simp)) v d acc]
    exact ih _ (fun d' hd' => hm d' (by simp [hd']))

/-- Claim C1 amended: on a structural-key collision the *later* raw
candidate replaces the earlier one wholesale — Python dict comprehension
semantics: last assignment wins while the key keeps its first position.  No
`baseScore` comparison and no `keywordScore` union take place: the list with
`c₁` earlier and `c₂` later (no other same-key item in between) deduplicates
exactly like the list with `c₂` in `c₁`'s position. -/
theorem dedupByKey_last_wins (pre mid post : List RawCand) (c₁ c₂ : RawCand)
    (hk : comboKey c₁ = comboKey c₂)
    (hmid : ∀ d ∈ mid, comboKey d ≠ comboKey c₂) :
    dedupByKey (pre ++ c₁ :: (mid ++ c₂ :: post)) =
      dedupByKey (pre ++ c₂ :: (mid ++ post)) := by
  unfold dedupByKey
  congr 1
  rw [List.foldl_append, List.foldl_append]
  simp only [List.foldl_cons]
  rw [List.foldl_append, List.foldl_append]
  simp only [List.foldl_cons]
  congr 1
  rw [hk]
  have hkey := hasKey_foldl (comboKey c₂) mid
    (dictInsert (comboKey c₂) c₁ (pre.foldl (fun a c => dictInsert (comboKey c) c a) []))
    (dictInsert_hasKey_self (comboKey c₂) c₁ _)
  rw [dictInsert_eq_replaceVal (comboKey c₂) c₂ _ hkey,
      ← foldl_replaceVal (comboKey c₂) c₂ mid _ hmid,
      replaceVal_dictInsert_self]

/-- Concrete instance of the amended C1: the two case-colliding candidates
of the counterexample; the later, lower-scoring one replaces the earlier. -/
theorem dedupByKey_last_wins_witness :
    dedupByKey [⟨"doc", "Hello", 97/100, none⟩, ⟨"doc", "hello", 19/20, none⟩] =
      dedupByKey [⟨"doc", "hello", 19/20, none⟩] :=
  dedupByKey_last_wins [] [] [] ⟨"doc", "Hello", 97/100, none⟩ ⟨"doc", "hello", 19/20, none⟩
    (by decide) (by simp)

/-- Helper: membership in the cutoff-and-sort phase implies membership in
the scored list together with the adaptive-cutoff inequality. -/
theorem mem_finalPhase (sqrtQ : ℚ → ℚ) (scoredL : List ScoredCand) (sc : ScoredCand)
    (h : sc ∈ finalPhase sqrtQ scoredL) :
    sc ∈ scoredL ∧ cutoffOf (scoredL.map (·.rank_score)) sqrtQ ≤ sc.rank_score := by
  unfold finalPhase at h
  rw [mem_stableSortDesc, List.mem_filter] at h
  exact ⟨h.1, by simpa using h.2⟩

/-- Helper: every candidate of a successful `retrieve_context` call comes
from the final phase applied to a `scoreCands` image. -/
theorem mem_retrieve_context (O : RetrievalOracles) (q : String) (mt dt : ℚ)
    (l : List ScoredCand) (sc : ScoredCand)
    (hok : retrieve_context O q mt dt = .ok l) (hmem : sc ∈ l) :
    ∃ scoredL, sc ∈ finalPhase O.sqrtQ scoredL ∧
      ∃ items, scoredL = scoreCands O.embQuery O.embChunk O.sqrtQ items := by
  unfold retrieve_context at hok
  split at hok
  · cases hok
  · split at hok
    · cases hok
    · rw [Except.ok.injEq] at hok
      rw [← hok] at hmem
      unfold retrieveCore at hmem
      split at hmem
      · simp at hmem
      · split at hmem
        · simp at hmem
        · exact ⟨_, hmem, _, rfl⟩

/-- Helper: the rank score attached by the scoring stage. -/
theorem mem_scoreCands (embQ : Option (List ℚ)) (embChunk : String → Option (List ℚ))
    (sqrtQ : ℚ → ℚ) (items : List RawCand) (sc : ScoredCand)
    (h : sc ∈ scoreCands embQ embChunk sqrtQ items) :
    sc.rank_score =
      (55 / 100 * sc.cand.score + 35 / 100 * cosineOrZero embQ embChunk sqrtQ sc.cand.content
        + 10 / 100 * sc.cand.keyword_score.getD 0)
      * (if sc.cand.type = "memory" then 108 / 100 else 1) := by
  unfold scoreCands at h
  rw [List.mem_map] at h
  obtain ⟨c, _, hc⟩ := h
  rw [← hc]

/-- Claim C2: every candidate surviving the adaptive cutoff has
`rankScore ≥ max(0.5, mean − 0.5·stdDev)` computed over all scored
candidates (first conjunct), and in particular every candidate returned by
any successful `retrieve_context` call has `rankScore ≥ 0.5`, even when
`mean − 0.5·stdDev` is negative (second conjunct; `cutoffOf` is
`max (1/2) ·` by definition). -/
theorem retrieve_context_cutoff_floor :
    (∀ (sqrtQ : ℚ → ℚ) (scoredL : List ScoredCand) (sc : ScoredCand),
       sc ∈ finalPhase sqrtQ scoredL →
       cutoffOf (scoredL.map (·.rank_score)) sqrtQ ≤ sc.rank_score ∧
       (1 / 2 : ℚ) ≤ sc.rank_score) ∧
    (∀ (O : RetrievalOracles) (q : String) (mt dt : ℚ) (l : List ScoredCand) (sc : ScoredCand),
       retrieve_context O q mt dt = .ok l → sc ∈ l → (1 / 2 : ℚ) ≤ sc.rank_score) := by
  have part1 : ∀ (sqrtQ : ℚ → ℚ) (scoredL : List ScoredCand) (sc : ScoredCand),
      sc ∈ finalPhase sqrtQ scoredL →
      cutoffOf (scoredL.map (·.rank_score)) sqrtQ ≤ sc.rank_score ∧
      (1 / 2 : ℚ) ≤ sc.rank_score := by
    intro sq sl sc h
    have hm := mem_finalPhase sq sl sc h
    refine ⟨hm.2, le_trans ?_ hm.2⟩
    unfold cutoffOf
    exact le_max_left _ _
  refine ⟨part1, ?_⟩
  intro O q mt dt l sc hok hmem
  obtain ⟨scoredL, hsc, _⟩ := mem_retrieve_context O q mt dt l sc hok hmem
  exact (part1 O.sqrtQ scoredL sc hsc).2

/-- Claim C4: every candidate returned by a successful `retrieve_context`
call carries
`rank_score = (0.55·base + 0.35·cosine + 0.10·keyword) · typeWeight` with
`typeWeight = 1.08` for memory candidates and `1.0` otherwise, and when no
query embedding was obtained the cosine term is `0` (the call does not
fail). -/
theorem retrieve_context_rank_formula (O : RetrievalOracles) (q : String) (mt dt : ℚ)
    (l : List ScoredCand) (sc : ScoredCand)
    (hok : retrieve_context O q mt dt = .ok l) (hmem : sc ∈ l) :
    sc.rank_score =
      (55 / 100 * sc.cand.score
        + 35 / 100 * cosineOrZero O.embQuery O.embChunk O.sqrtQ sc.cand.content
        + 10 / 100 * sc.cand.keyword_score.getD 0)
      * (if sc.cand.type = "memory" then 108 / 100 else 1) ∧
    (O.embQuery = none → cosineOrZero O.embQuery O.embChunk O.sqrtQ sc.cand.content = 0) := by
  constructor
  · obtain ⟨scoredL, hsc, items, hitems⟩ := mem_retrieve_context O q mt dt l sc hok hmem
    have hmem2 := (mem_finalPhase O.sqrtQ scoredL sc hsc).1
    rw [hitems] at hmem2
    exact mem_scoreCands O.embQuery O.embChunk O.sqrtQ items sc hmem2
  · intro h
    rw [h]
    rfl

section ConcreteEvaluations

attribute [local semireducible] Rat.mul Rat.inv Rat.add Rat.sub

/-- Claim C1 counterexample: on the call
`retrieve_context Odup "world" 0.7 0.7` the docs search yields the raw
candidates `("Hello", baseScore 97/100)` and `("hello", baseScore 19/20)`,
which collide on the structural key `("doc", "hello")`.  The claim requires
the higher-scoring `"Hello"` to be kept; the dict comprehension keeps the
*later*, lower-scoring `"hello"`, as the full output shows — the single
returned candidate has score `19/20`, and no candidate with the higher
score `97/100` survives. -/
theorem retrieve_context_dedup_keeps_last :
    retrieve_context Odup "world" (7/10) (7/10) =
      .ok [⟨⟨"doc", "hello", 19/20, none⟩, 209/400⟩] ∧
    (19/20 : ℚ) < 97/100 := by
  constructor
  · decide
  · norm_num

/-- Concrete instance of C2: a one-candidate retrieval; the candidate meets
the adaptive cutoff and the 0.5 floor. -/
theorem retrieve_context_cutoff_floor_witness :
    (cutoffOf (([(⟨⟨"doc", "hello docs", 1, none⟩, 11/20⟩ : ScoredCand)]).map
        (·.rank_score)) (fun _ => 0) ≤
      (⟨⟨"doc", "hello docs", 1, none⟩, 11/20⟩ : ScoredCand).rank_score ∧
     (1/2 : ℚ) ≤ (⟨⟨"doc", "hello docs", 1, none⟩, 11/20⟩ : ScoredCand).rank_score) ∧
    (1/2 : ℚ) ≤ (⟨⟨"doc", "hello docs", 1, none⟩, 11/20⟩ : ScoredCand).rank_score := by
  constructor
  · exact retrieve_context_cutoff_floor.1 (fun _ => 0)
      [⟨⟨"doc", "hello docs", 1, none⟩, 11/20⟩]
      ⟨⟨"doc", "hello docs", 1, none⟩, 11/20⟩ (by decide)
  · exact retrieve_context_cutoff_floor.2 Osimple "qq" (7/10) (7/10)
      [⟨⟨"doc", "hello docs", 1, none⟩, 11/20⟩]
      ⟨⟨"doc", "hello docs", 1, none⟩, 11/20⟩ (by decide) (by simp)

/-- Concrete instance of C4 on the same one-candidate retrieval. -/
theorem retrieve_context_rank_formula_witness :
    (⟨⟨"doc", "hello docs", 1, none⟩, 11/20⟩ : ScoredCand).rank_score =
      (55 / 100 * (⟨⟨"doc", "hello docs", 1, none⟩, 11/20⟩ : ScoredCand).cand.score
        + 35 / 100 * cosineOrZero Osimple.embQuery Osimple.embChunk Osimple.sqrtQ
            (⟨⟨"doc", "hello docs", 1, none⟩, 11/20⟩ : ScoredCand).cand.content
        + 10 / 100 * (⟨⟨"doc", "hello docs", 1, none⟩, 11/20⟩ : ScoredCand).cand.keyword_score.getD 0)
      * (if (⟨⟨"doc", "hello docs", 1, none⟩, 11/20⟩ : ScoredCand).cand.type = "memory"
          then 108 / 100 else 1) ∧
    (Osimple.embQuery = none →
      cosineOrZero Osimple.embQuery Osimple.embChunk Osimple.sqrtQ
        (⟨⟨"doc", "hello docs", 1, none⟩, 11/20⟩ : ScoredCand).cand.content = 0) :=
  retrieve_context_rank_formula Osimple "qq" (7/10) (7/10)
    [⟨⟨"doc", "hello docs", 1, none⟩, 11/20⟩]
    ⟨⟨"doc", "hello docs", 1, none⟩, 11/20⟩ (by decide) (by simp)

end ConcreteEvaluations

theorem retryAux_isSome (call : ℕ → Observation) :
    ∀ fuel i, 1 ≤ fuel → ((retryAux call fuel i).1).isSome = true := by
  intro fuel
  induction fuel with
  | zero => intro i h; omega
  | succ f ih =>
    intro i _
    by_cases h : (call i).success
    · cases f with
      | zero => simp [retryAux, h]
      | succ f' => simp [retryAux, h]
    · cases f with
      | zero => simp [retryAux, h]
      | succ f' =>
        simp only [retryAux, h, Bool.false_eq_true, if_false]
        simpa using ih (i + 1) (by omega)

/-- Helper: one run of the step loop always yields a result (given an
effective retry budget of at least 1, which `pyOrNat` guarantees), its trace
extends the accumulated trace by at most one entry per remaining step, and
its final text is the no-action message, the max-steps message, or a
model-produced final answer. -/
theorem runLoop_spec (O : AgentOracles) (mr timeoutS : ℕ) (hmr : 1 ≤ mr) :
    ∀ (fuel step : ℕ) (messages : List Message) (scratch : List String)
      (trace : List TraceEntry) (calls : ℕ),
      ∃ r, runLoop O mr timeoutS fuel step messages scratch trace calls = some r ∧
        r.trace.length ≤ trace.length + fuel ∧
        (∃ ext, r.trace = trace ++ ext) ∧
        (r.final_text = noActionMessage ∨ r.final_text = maxStepsMessage ∨
          isModelFinal O r.final_text) := by
  intro fuel
  induction fuel with
  | zero =>
    intro step messages scratch trace calls
    exact ⟨⟨maxStepsMessage, String.intercalate "\n" scratch, trace⟩, rfl,
      by simp, ⟨[], by simp⟩, Or.inr (Or.inl rfl)⟩
  | succ f ih =>
    intro step messages scratch trace calls
    cases hfin : (modelLinesAt O messages scratch).find?
        (fun l => pyStartsWith l finalAnswerMarker) with
    | some fl =>
      refine ⟨⟨pyStrip (pyDrop fl finalAnswerMarker.length),
          String.intercalate "\n" scratch, trace⟩,
        by simp [runLoop, hfin], by simp, ⟨[], by simp⟩, Or.inr (Or.inr ?_)⟩
      exact ⟨stepMessages messages scratch, fl, List.mem_of_find?_eq_some hfin,
        by simpa using List.find?_some hfin, rfl⟩
    | none =>
      cases hact : (modelLinesAt O messages scratch).find?
          (fun l => pyStartsWith l actionMarker) with
      | none =>
        exact ⟨⟨noActionMessage, String.intercalate "\n" scratch, trace⟩,
          by simp [runLoop, hfin, hact], by simp, ⟨[], by simp⟩, Or.inl rfl⟩
      | some al =>
        cases hparse : parse_action_line O.jsonLoads al with
        | none =>
          obtain ⟨r, hr, hlen, ⟨ext, hext⟩, htri⟩ :=
            ih (step + 1) (stepMessages messages scratch)
              (scratch ++ [observationMarker ++ " " ++ "Failed to parse action line: " ++ al])
              (trace ++ [⟨step,
                (modelLinesAt O messages scratch).find? (fun l => pyStartsWith l thoughtMarker),
                none,
                some ⟨"Failed to parse action line: " ++ al, false,
                      some [("error", "parse_error")]⟩⟩]) calls
          refine ⟨r, ?_, ?_, ⟨(⟨step,
            (modelLinesAt O messages scratch).find? (fun l => pyStartsWith l thoughtMarker),
            none,
            some ⟨"Failed to parse action line: " ++ al, false,
                  some [("error", "parse_error")]⟩⟩ : TraceEntry) :: ext, ?_⟩, htri⟩
          · simp only [runLoop, hfin, hact, hparse]
            exact hr
          · simp only [List.length_append, List.length_cons, List.length_nil] at hlen
            omega
          · rw [hext, List.append_assoc]
            rfl
        | some action =>
          have hsome := retryAux_isSome
            (fun i => run_tool_safely O.registry (O.exec (calls + i)) action.name action.args
              timeoutS) mr 0 hmr
          cases hr0 : retryAux
              (fun i => run_tool_safely O.registry (O.exec (calls + i)) action.name action.args
                timeoutS) mr 0 with
          | mk fst used =>
            cases fst with
            | none => rw [hr0] at hsome; simp at hsome
            | some obs =>
              obtain ⟨r, hr, hlen, ⟨ext, hext⟩, htri⟩ :=
                ih (step + 1) (stepMessages messages scratch)
                  (scratchAfterAction O scratch
                    ((modelLinesAt O messages scratch).find?
                      (fun l => pyStartsWith l thoughtMarker)) action obs)
                  (trace ++ [⟨step,
                    (modelLinesAt O messages scratch).find?
                      (fun l => pyStartsWith l thoughtMarker),
                    some action, some obs⟩]) (calls + used)
              refine ⟨r, ?_, ?_, ⟨(⟨step,
                (modelLinesAt O messages scratch).find?
                  (fun l => pyStartsWith l thoughtMarker),
                some action, some obs⟩ : TraceEntry) :: ext, ?_⟩, htri⟩
              · simp only [runLoop, hfin, hact, hparse, hr0]
                exact hr
              · simp only [List.length_append, List.length_cons, List.length_nil] at hlen
                omega
              · rw [hext, List.append_assoc]
                rfl

/-- Claim C5: every invocation of `Agent.run` returns exactly one
`AgentResult` (the embedded run is `some` for every oracle, config and
input), whose final text is a model-produced final answer, the fixed
could-not-determine message, or the fixed max-steps message, and whose
trace never exceeds the effective `maxSteps` — `pyOrNat cfg.max_steps
DEFAULT_MAX_STEPS`, with `DEFAULT_MAX_STEPS = 15`. -/
theorem agent_run_total_and_bounded (O : AgentOracles) (cfg : AgentConfig)
    (user_input : String) (history : List Message) :
    ∃ r, Agent.run O cfg user_input history = some r ∧
      r.trace.length ≤ pyOrNat cfg.max_steps DEFAULT_MAX_STEPS ∧
      DEFAULT_MAX_STEPS = 15 ∧
      (r.final_text = noActionMessage ∨ r.final_text = maxStepsMessage ∨
        isModelFinal O r.final_text) := by
  have hmr : 1 ≤ pyOrNat cfg.max_retries DEFAULT_MAX_RETRIES :=
    pyOrNat_pos cfg.max_retries DEFAULT_MAX_RETRIES (by norm_num [DEFAULT_MAX_RETRIES])
  obtain ⟨r, hr, hlen, _, htri⟩ := runLoop_spec O
    (pyOrNat cfg.max_retries DEFAULT_MAX_RETRIES)
    (pyOrNat cfg.tool_timeout_sec DEFAULT_TOOL_TIMEOUT_SEC) hmr
    (pyOrNat cfg.max_steps DEFAULT_MAX_STEPS) 1
    (initialMessages O cfg user_input history) [] [] 0
  exact ⟨r, hr, by simpa using hlen, rfl, htri⟩

/-- Claim C10: `allowed_tools` reaches only the system prompt
(`initialMessages` via `buildSystemPrompt`); the dispatch path looks tools
up in the registry alone.  Whenever the model's first response parses to an
action naming a registered tool `t` — even with `t` outside the configured
`allowed_tools` — the tool is executed and its observation recorded as the
first trace entry. -/
theorem dispatch_ignores_allowed_tools
    (O : AgentOracles) (cfg : AgentConfig) (user_input : String) (history : List Message)
    (allowed : List String) (t : String) (argsObj : JVal) (res : String) (al : String)
    (hallow : cfg.allowed_tools = some allowed)
    (hnot : t ∉ allowed)
    (hreg : t ∈ O.registry)
    (hfin : (relevantLines (O.llm (initialMessages O cfg user_input history))).find?
              (fun l => pyStartsWith l finalAnswerMarker) = none)
    (hact : (relevantLines (O.llm (initialMessages O cfg user_input history))).find?
              (fun l => pyStartsWith l actionMarker) = some al)
    (hparse : parse_action_line O.jsonLoads al = some ⟨t, argsObj⟩)
    (hexec : O.exec 0 t argsObj = .ok res) :
    ∃ r rest th, Agent.run O cfg user_input history = some r ∧
      r.trace = ⟨1, th, some ⟨t, argsObj⟩, some ⟨res, true, none⟩⟩ :: rest := by
  have hmr : 1 ≤ pyOrNat cfg.max_retries DEFAULT_MAX_RETRIES :=
    pyOrNat_pos cfg.max_retries DEFAULT_MAX_RETRIES (by norm_num [DEFAULT_MAX_RETRIES])
  have hms : 0 < pyOrNat cfg.max_steps DEFAULT_MAX_STEPS :=
    pyOrNat_pos cfg.max_steps DEFAULT_MAX_STEPS (by norm_num [DEFAULT_MAX_STEPS])
  obtain ⟨fs, hfs⟩ := Nat.exists_eq_succ_of_ne_zero (Nat.pos_iff_ne_zero.mp hms)
  have hml : modelLinesAt O (initialMessages O cfg user_input history) [] =
      relevantLines (O.llm (initialMessages O cfg user_input history)) := by
    simp [modelLinesAt, stepMessages]
  have hcall0 : run_tool_safely O.registry (O.exec 0) t argsObj
      (pyOrNat cfg.tool_timeout_sec DEFAULT_TOOL_TIMEOUT_SEC) = ⟨res, true, none⟩ := by
    simp [run_tool_safely, hreg, hexec]
  obtain ⟨m, hm⟩ := Nat.exists_eq_succ_of_ne_zero (Nat.pos_iff_ne_zero.mp hmr)
  have hretry : retryAux
      (fun i => run_tool_safely O.registry (O.exec (0 + i)) t argsObj
        (pyOrNat cfg.tool_timeout_sec DEFAULT_TOOL_TIMEOUT_SEC))
      (pyOrNat cfg.max_retries DEFAULT_MAX_RETRIES) 0 = (some ⟨res, true, none⟩, 1) := by
    rw [hm]
    cases m with
    | zero => simp [retryAux, hcall0]
    | succ m' => simp [retryAux, hcall0]
  obtain ⟨r, hr, _, ⟨ext, hext⟩, _⟩ := runLoop_spec O
    (pyOrNat cfg.max_retries DEFAULT_MAX_RETRIES)
    (pyOrNat cfg.tool_timeout_sec DEFAULT_TOOL_TIMEOUT_SEC) hmr
    fs 2 (stepMessages (initialMessages O cfg user_input history) [])
    (scratchAfterAction O []
      ((modelLinesAt O (initialMessages O cfg user_input history) []).find?
        (fun l => pyStartsWith l thoughtMarker)) ⟨t, argsObj⟩ ⟨res, true, none⟩)
    ([] ++ [⟨1,
      (modelLinesAt O (initialMessages O cfg user_input history) []).find?
        (fun l => pyStartsWith l thoughtMarker),
      some ⟨t, argsObj⟩, some ⟨res, true, none⟩⟩]) (0 + 1)
  refine ⟨r, ext,
    (modelLinesAt O (initialMessages O cfg user_input history) []).find?
      (fun l => pyStartsWith l thoughtMarker), ?_, ?_⟩
  · unfold Agent.run
    rw [hfs]
    simp only [runLoop, hml, hfin, hact, hparse, hretry]
    exact hr
  · rw [hext]
    rfl

/-- Concrete instance of C10: the registry holds only tool `t`, the config
allows only `"other"`, the model asks for `t(\x7b\x7d)` — and `t` is
executed anyway, its success recorded as the first trace entry. -/
theorem dispatch_ignores_allowed_tools_witness :
    ∃ r rest th, Agent.run OA cfgA "hi" [] = some r ∧
      r.trace = ⟨1, th, some ⟨"t", .obj []⟩, some ⟨"done", true, none⟩⟩ :: rest :=
  dispatch_ignores_allowed_tools OA cfgA "hi" [] ["other"] "t" (.obj []) "done"
    "Action: t(\x7b\x7d)" rfl (by decide) (by decide) (by decide) (by decide) (by rfl) rfl

end Copilot
